import Mathlib

/-!
Verification of the a-shares MCP server's fund-flow analysis pipeline.

Shallow embedding of:
  * `src/app/utils/stock_code_util.py` (`format_stock_code`, `get_stock_market`)
  * `src/app/tools/large_fund_flow_analysis_tool.py` (`analyze_large_fund_flow`:
    cache key, filter/sort/truncate pipeline, quarter-candidate generation,
    holding enrichment loop, result assembly).

Numeric columns (pandas floats) are modelled as rationals; Python `None`
as `Option.none`; a raised exception as `Except.error`.
-/

namespace AShares

/-! ## stock_code_util.py -/

/-- `format_stock_code(symbol)`: if `len(symbol) > 6`, take the last 6
characters (`symbol[-6:]`); then, if the result contains a dot, keep the
part before the first dot (`symbol.split(".")[0]`). -/
def format_stock_code (symbol : String) : String :=
  let symbol :=
    if 6 < symbol.length then
      String.mk (symbol.toList.drop (symbol.length - 6))
    else symbol
  if symbol.toList.contains '.' then
    String.mk (symbol.toList.takeWhile (fun c => c ≠ '.'))
  else symbol

/-- `str.isdigit()` for ASCII decimal digits, as used on stock codes. -/
def isDigitStr (s : String) : Bool :=
  s.toList ≠ [] && s.toList.all (fun c => c.isDigit)

/-- `get_stock_market(symbol)`: raises `ValueError` unless the input is a
6-character digit string; then branches on the 2-character code pfx
(`symbol[:2]`): `"60"/"68" → "sh"`, `"00"/"30" → "sz"`
(the `"002"` list entry can never equal a 2-character pfx),
`"43"/"83"/"87"/"88" → "bj"`.  The Python function body has no trailing
`else` branch, so any other 6-digit code falls off the end of the
function and returns `None` (modelled as `Option.none`). -/
def get_stock_market (symbol : String) : Except String (Option String) :=
  if ¬ (symbol.length = 6 ∧ isDigitStr symbol) then
    .error "股票代码必须为6位数字字符串"
  else
    let pfx := String.mk (symbol.toList.take 2)
    if pfx = "60" ∨ pfx = "68" then .ok (some "sh")
    else if pfx = "00" ∨ pfx = "30" ∨ pfx = "002" then .ok (some "sz")
    else if pfx = "43" ∨ pfx = "83" ∨ pfx = "87" ∨ pfx = "88" then .ok (some "bj")
    else .ok none

/-! ## analyze_large_fund_flow: criteria and cache key -/

/-- Direction of the sort, the `Literal["main_fund", "turnover_ratio"]`
parameter `sort_by`. -/
inductive SortBy where
  | main_fund
  | turnover_ratio
deriving DecidableEq, Repr

/-- The parameter set of one `analyze_large_fund_flow` call
(spec: `FilterCriteria`). -/
structure Criteria where
  mainFundInflowThreshold : ℚ
  turnoverRatioThreshold : ℚ
  priceChangeThreshold : ℚ
  mainFundRatioThreshold : ℚ
  stockType : String
  maxResults : ℕ
  sortBy : SortBy
  analyzeHolding : Bool
deriving DecidableEq, Repr

/-- String rendered for `sort_by` in the cache key f-string. -/
def SortBy.render : SortBy → String
  | .main_fund => "main_fund"
  | .turnover_ratio => "turnover_ratio"

/-- Python `str(bool)` as it appears in the f-string. -/
def renderBool (b : Bool) : String := if b then "True" else "False"

/-- The screening-cache key
`f"large_fund_{main_fund_inflow_threshold}_{turnover_ratio_threshold}_"
 f"{price_change_threshold}_{main_fund_ratio_threshold}_{stock_type}_{sort_by}_{analyze_holding}"`.
Note: `max_results` and `use_cache` do not occur in it. -/
def cacheKey (c : Criteria) : String :=
  "large_fund_" ++ toString c.mainFundInflowThreshold ++ "_"
    ++ toString c.turnoverRatioThreshold ++ "_"
    ++ toString c.priceChangeThreshold ++ "_"
    ++ toString c.mainFundRatioThreshold ++ "_"
    ++ c.stockType ++ "_" ++ c.sortBy.render ++ "_"
    ++ renderBool c.analyzeHolding

/-! ## The merged table and derived indicators

One row of `merged_df` (after the two inner joins of step 6): quote fields
plus the fund-flow percent column.  The derived columns of steps 4 and 7
are functions of the row. -/

structure Row where
  code : String
  name : String
  price : ℚ       -- 最新价
  pctChange : ℚ   -- 涨跌幅
  volume : ℚ      -- 成交量
  amount : ℚ      -- 成交额（元）
  marketCap : ℚ   -- 总市值（元）
  netPct : ℚ      -- 主力净流入-净占比
deriving DecidableEq, Repr

namespace Row

/-- `主力净流入-净额 = 成交额 * 主力净流入-净占比 / 100` (step 4). -/
def netAmount (r : Row) : ℚ := r.amount * r.netPct / 100

/-- `主力净流入-万元 = 主力净流入-净额 / 10000`. -/
def mainFundWan (r : Row) : ℚ := r.netAmount / 10000

/-- `成交额-万元 = 成交额 / 10000` (step 5). -/
def amountWan (r : Row) : ℚ := r.amount / 10000

/-- `交易量占比 = 成交额-万元 * 10000 / 总市值 * 100` (step 7). -/
def turnoverRatio (r : Row) : ℚ := r.amountWan * 10000 / r.marketCap * 100

/-- `主力资金占比 = abs(主力净流入-万元) / 成交额-万元 * 100` (step 7). -/
def mainFundRatio (r : Row) : ℚ := |r.mainFundWan| / r.amountWan * 100

/-- `资金流向 = "流入" if 主力净流入-万元 > 0 else "流出"` (step 7). -/
def direction (r : Row) : String := if 0 < r.mainFundWan then "流入" else "流出"

end Row

/-- Step 8, the four conjunctive filter conditions of lines 198–211. -/
def passesFilter (c : Criteria) (r : Row) : Bool :=
  (c.mainFundInflowThreshold ≤ |r.mainFundWan|)
    && (c.turnoverRatioThreshold ≤ r.turnoverRatio)
    && (c.priceChangeThreshold ≤ |r.pctChange|)
    && (c.mainFundRatioThreshold ≤ r.mainFundRatio)

/-- The sort key of step 9: `abs` of `主力净流入-万元` for `main_fund`,
`交易量占比` for `turnover_ratio`. -/
def sortKey (c : Criteria) (r : Row) : ℚ :=
  match c.sortBy with
  | .main_fund => |r.mainFundWan|
  | .turnover_ratio => r.turnoverRatio

/-- `sort_values(..., ascending=False)` with the default
`kind="quicksort"`: the output is some permutation of the input that is
non-increasing in the key.  pandas documents quicksort as not stable, so
nothing beyond sortedness is guaranteed about the order of key-ties. -/
def IsSortResult (key : Row → ℚ) (input output : List Row) : Prop :=
  output.Perm input ∧ output.Chain' (fun a b => key b ≤ key a)

/-- The `data` lists that lines 198–221 (filter, sort, `head(max_results)`)
can produce from the merged table. -/
def IsAnalyzeData (c : Criteria) (merged data : List Row) : Prop :=
  ∃ sorted, IsSortResult (sortKey c) (merged.filter (passesFilter c)) sorted
    ∧ data = sorted.take c.maxResults

/-- The success envelope of step 13 (lines 644–655), restricted to the
fields the claims are about: `message`, `total_matched`, `data`. -/
structure AnalysisResult where
  message : String
  totalMatched : ℕ
  data : List Row
deriving DecidableEq, Repr

/-- The results the successful path of `analyze_large_fund_flow` can
return: `message` is the fixed success string, `total_matched` is
`len(result_list)` where `result_list` has one record per row of the
truncated frame, and `data` is the truncated frame. -/
def IsAnalyzeResult (c : Criteria) (merged : List Row) (res : AnalysisResult) : Prop :=
  ∃ data, IsAnalyzeData c merged data
    ∧ res = { message := "分析完成", totalMatched := data.length, data := data }

end AShares

namespace AShares

/-! ## Quarter-candidate generation (lines 237–271) -/

/-- `list(dict.fromkeys(l))` (line 271): remove duplicates keeping the
first occurrence of each element. -/
def pyDedup {α : Type} [DecidableEq α] : List α → List α
  | [] => []
  | a :: l => a :: pyDedup (l.filter (fun b => b ≠ a))
termination_by l => l.length
decreasing_by
  simp only [List.length_cons]
  exact Nat.lt_succ_of_le (List.length_filter_le _ _)

theorem mem_pyDedup {α : Type} [DecidableEq α] (x : α) :
    ∀ l : List α, x ∈ pyDedup l ↔ x ∈ l := by
  intro l
  induction l using pyDedup.induct with
  | case1 => simp [pyDedup]
  | case2 a l ih =>
    rw [pyDedup, List.mem_cons, ih, List.mem_filter, List.mem_cons]
    by_cases hxa : x = a
    · subst hxa; simp
    · simp [hxa]

theorem nodup_pyDedup {α : Type} [DecidableEq α] :
    ∀ l : List α, (pyDedup l).Nodup := by
  intro l
  induction l using pyDedup.induct with
  | case1 => simp [pyDedup]
  | case2 a l ih =>
    rw [pyDedup]
    refine List.nodup_cons.mpr ⟨fun hmem => ?_, ih⟩
    have := (mem_pyDedup a _).mp hmem
    simp [List.mem_filter] at this

/-- The quarter-candidate list built at lines 238–271 from the current
year and month: conditional appends/inserts mirroring the Python
`append` / `insert(0, ...)` / `extend` calls, then `dict.fromkeys`
de-duplication.  The identifier text is `f"{year}{q}"`. -/
def quartersToTry (year month : ℕ) : List String :=
  let l1 : List String := if 4 ≤ month then [toString year ++ "1"] else []
  let l2 := if 8 ≤ month then (toString year ++ "2") :: l1 else l1
  let l3 := if 10 ≤ month then (toString year ++ "3") :: l2 else l2
  let l4 := l3 ++ [toString (year - 1) ++ "4"]
  let l5 := if month ≤ 4 then (toString year ++ "1") :: l4 else l4
  pyDedup (l5 ++ [toString (year - 1) ++ "3", toString (year - 1) ++ "2",
    toString (year - 1) ++ "1"])

end AShares

namespace AShares

/-! ## Holding enrichment (step 11, lines 273–554)

The two external lookups `ak.stock_institute_hold_detail` and
`ak.stock_main_stock_holder` are modelled as oracle functions returning
either a raised exception (`Except.error`) or a data frame (a list of
rows).  Display-string assembly (`f"{x:.2f}%"` and the type-distribution
text) is kept as structured data. -/

/-- One row of the institutional-holding frame: holding percentage
(`最新持股比例`/`持股比例`) and, when the `持股比例增幅` column exists,
its per-institution change. -/
structure InstRow where
  ratio : ℚ
  change : Option ℚ
deriving DecidableEq, Repr

/-- One row of the shareholder frame (`ak.stock_main_stock_holder`):
as-of date `截至日期` (as a day ordinal), shareholder name `股东名称`,
holding percentage `持股比例`, optional total-holder count `股东总数`. -/
structure HolderRow where
  date : ℕ
  holder : String
  ratio : ℚ
  total : Option ℕ
deriving DecidableEq, Repr

/-- `增持` / `减持` / `持平`. -/
inductive Trend where
  | up
  | down
  | flat
deriving DecidableEq, Repr

/-- The `机构持股` sub-section of one stock's holding record. -/
inductive InstSummary where
  /-- `{"错误": msg}`, written by the `except` at lines 439–440. -/
  | fail (msg : String)
  /-- `{"状态": "无机构持股数据"}` (line 437). -/
  | noData
  /-- single-quarter record (lines 408–435). -/
  | single (ratio : ℚ) (count : ℕ) (quarter : String)
  /-- two-quarter comparison (lines 330–406). -/
  | compare (curRatio prevRatio : ℚ) (curCount prevCount : ℕ)
      (curQuarter prevQuarter : String) (trend : Trend)
      (increased decreased unchanged : ℕ)
deriving DecidableEq, Repr

/-- The `股东持股` sub-section of one stock's holding record. -/
inductive HolderSummary where
  /-- `{"错误": msg}`, written by the `except` at lines 544–545. -/
  | fail (msg : String)
  /-- `{"状态": "无股东持股数据"}` (lines 541, 543). -/
  | noData
  /-- one as-of date only (lines 526–539). -/
  | single (latestDate : ℕ) (total : Option ℕ)
  /-- two as-of dates compared (lines 458–525). -/
  | compare (latestDate prevDate : ℕ)
      (increased decreased unchanged newcomers exited : ℕ)
      (total : Option ℕ) (trend : Trend)
deriving DecidableEq, Repr

/-- One stock's `stock_holding = {"机构持股": ..., "股东持股": ...}`. -/
structure StockHolding where
  inst : InstSummary
  holder : HolderSummary
deriving DecidableEq, Repr

/-- The probing loop of lines 288–327: walk the quarter candidates with
index `i`, breaking once `i >= 3` or two non-empty frames have been
collected; a raising fetch aborts the whole institutional block.
`fetch q` stands for `ak.stock_institute_hold_detail(stock=code, quarter=q)`. -/
def collectAvail (fetch : String → Except String (List InstRow)) :
    List String → ℕ → List (String × List InstRow) →
    Except String (List (String × List InstRow))
  | [], _, acc => .ok acc
  | q :: rest, i, acc =>
    if 3 ≤ i then .ok acc
    else if 1 < acc.length then .ok acc
    else
      match fetch q with
      | .error e => .error e
      | .ok frame =>
        if frame = [] then collectAvail fetch rest (i + 1) acc
        else collectAvail fetch rest (i + 1) (acc ++ [(q, frame)])

/-- `df_quarter["最新持股比例"].sum()` (lines 312–316). -/
def totalRatio (frame : List InstRow) : ℚ := (frame.map (·.ratio)).sum

/-- `sum(current_df["持股比例增幅"] ⋄ 0)` when the column exists
(lines 344–358); a missing column is all-`none` rows, giving 0. -/
def countChange (frame : List InstRow) (p : ℚ → Bool) : ℕ :=
  (frame.filter (fun r => (r.change.map p).getD false)).length

/-- `"增持" if ratio_change > 0 else "减持" if ratio_change < 0 else "持平"`
(lines 378–382). -/
def instTrend (change : ℚ) : Trend :=
  if 0 < change then .up else if change < 0 then .down else .flat

/-- Summarize `available_data` (lines 329–437): two or more quarters →
comparison, one → single snapshot, none → no-data status. -/
def summarizeInst (avail : List (String × List InstRow)) : InstSummary :=
  match avail with
  | [] => .noData
  | [(q, frame)] => .single (totalRatio frame) frame.length q
  | (qc, fc) :: (qp, fp) :: _ =>
    .compare (totalRatio fc) (totalRatio fp) fc.length fp.length qc qp
      (instTrend (totalRatio fc - totalRatio fp))
      (countChange fc (fun x => decide (0 < x)))
      (countChange fc (fun x => decide (x < 0)))
      (countChange fc (fun x => decide (x = 0)))

/-- The whole institutional try-block of lines 287–440: a raised fetch
becomes the `{"错误": ...}` entry, otherwise the collected quarters are
summarized. -/
def instBlock (fetch : String → Except String (List InstRow))
    (quarters : List String) : InstSummary :=
  match collectAvail fetch quarters 0 [] with
  | .error e => .fail e
  | .ok avail => summarizeInst avail

/-- Descending insertion of a date, for
`sort_values(ascending=False)` on the `截至日期` column. -/
def insertDesc (x : ℕ) : List ℕ → List ℕ
  | [] => [x]
  | y :: l => if y < x then x :: y :: l else y :: insertDesc x l

/-- Descending sort of the as-of dates. -/
def sortDesc : List ℕ → List ℕ
  | [] => []
  | x :: l => insertDesc x (sortDesc l)

/-- First `持股比例` value among rows of a given shareholder
(`...["持股比例"].values[0]`, lines 478–483). -/
def firstRatio (rows : List HolderRow) (name : String) : ℚ :=
  ((rows.find? (fun r => r.holder = name)).map (·.ratio)).getD 0

/-- `股东总数` of the first row of a partition (`.iloc[0]`, line 515);
`none` models the column missing or NaN. -/
def firstTotal (rows : List HolderRow) : Option ℕ :=
  match rows with
  | r :: _ => r.total
  | [] => none

/-- The whole shareholder try-block of lines 443–545: a raised fetch
becomes the `{"错误": ...}` entry; otherwise the two most recent
distinct as-of dates are compared per shareholder name. -/
def holderBlock (fetchRes : Except String (List HolderRow)) : HolderSummary :=
  match fetchRes with
  | .error e => .fail e
  | .ok frame =>
    if frame = [] then .noData
    else
      match (pyDedup (sortDesc (frame.map (·.date)))).take 2 with
      | d0 :: d1 :: _ =>
        let latest := frame.filter (fun r => r.date = d0)
        let prev := frame.filter (fun r => r.date = d1)
        let latestNames := pyDedup (latest.map (·.holder))
        let prevNames := pyDedup (prev.map (·.holder))
        let common := latestNames.filter (fun n => prevNames.contains n)
        let inc := (common.filter
          (fun n => decide (firstRatio prev n < firstRatio latest n))).length
        let declined := (common.filter
          (fun n => decide (firstRatio latest n < firstRatio prev n))).length
        let unch := (common.filter
          (fun n => decide (firstRatio latest n = firstRatio prev n))).length
        let newcomers := (latestNames.filter (fun n => !prevNames.contains n)).length
        let exited := (prevNames.filter (fun n => !latestNames.contains n)).length
        .compare d0 d1 inc declined unch newcomers exited (firstTotal latest)
          (if declined < inc then .up else if inc < declined then .down else .flat)
      | [d0] => .single d0 (firstTotal (frame.filter (fun r => r.date = d0)))
      | [] => .noData

/-- The body of the per-stock loop (lines 283–551, cache hit aside):
`clean_code = format_stock_code(stock_code)`, then the institutional and
shareholder sub-sections, each with its own exception scope.  The outer
`except` of lines 553–554 is unreachable here because both fallible
lookups are already caught inside. -/
def enrichOne (instF : String → String → Except String (List InstRow))
    (holdF : String → Except String (List HolderRow))
    (quarters : List String) (code : String) : StockHolding :=
  let clean := format_stock_code code
  { inst := instBlock (instF clean) quarters
    holder := holderBlock (holdF clean) }

/-- `holding_info`: one entry per code of `result_df["代码"].unique()`. -/
def holdingInfo (instF : String → String → Except String (List InstRow))
    (holdF : String → Except String (List HolderRow))
    (quarters : List String) (codes : List String) :
    List (String × StockHolding) :=
  codes.map (fun c => (c, enrichOne instF holdF quarters c))

end AShares

namespace AShares

/-! ## The two cache namespaces -/

/-- The holding-cache probe of lines 276–281: a stored entry is reused
only when `current_time - cache_time < 86400`; a stale entry falls
through to recomputation. -/
def lookupHolding (cache : List (String × (StockHolding × ℚ)))
    (key : String) (now : ℚ) : Option StockHolding :=
  match cache.lookup key with
  | some (d, t) => if now - t < 86400 then some d else none
  | none => none

/-- The per-stock loop of lines 273–554 with the `_holding_cache`
threaded through: a fresh entry is reused (`continue`), otherwise the
stock is enriched and stored under `f"holding_{clean_code}"`.  Returns
`holding_info` together with the number of stocks actually computed
(cache misses, i.e. external fetch rounds). -/
def runHoldingLoop (instF : String → String → Except String (List InstRow))
    (holdF : String → Except String (List HolderRow))
    (quarters : List String) (now : ℚ) :
    List String → List (String × (StockHolding × ℚ)) →
    List (String × StockHolding) × ℕ
  | [], _ => ([], 0)
  | code :: rest, cache =>
    let key := "holding_" ++ format_stock_code code
    match lookupHolding cache key now with
    | some d =>
      let r := runHoldingLoop instF holdF quarters now rest cache
      ((code, d) :: r.1, r.2)
    | none =>
      let d := enrichOne instF holdF quarters code
      let r := runHoldingLoop instF holdF quarters now rest ((key, (d, now)) :: cache)
      ((code, d) :: r.1, r.2 + 1)

/-- Line 99: `_holding_cache = {}` is a local of the `analyze_large_fund_flow`
body, so every call runs the per-stock loop against an empty holding
cache — no state survives from any earlier call. -/
def callHoldingLoop (instF : String → String → Except String (List InstRow))
    (holdF : String → Except String (List HolderRow))
    (quarters : List String) (now : ℚ) (codes : List String) :
    List (String × StockHolding) × ℕ :=
  runHoldingLoop instF holdF quarters now codes []

/-- The screening-cache probe of lines 93–96: under `use_cache`, a stored
entry younger than `_cache_duration = 300` seconds is returned verbatim. -/
def checkRequestCache (cache : List (String × (AnalysisResult × ℚ)))
    (key : String) (now : ℚ) : Option AnalysisResult :=
  match cache.lookup key with
  | some (d, t) => if now - t < 300 then some d else none
  | none => none

end AShares

namespace AShares

/-! ## Sample data used by witnesses and counterexamples -/

/-- The default criteria of the tool signature (lines 36–60),
`max_results = 10`. -/
def c0 : Criteria :=
  { mainFundInflowThreshold := 5000
    turnoverRatioThreshold := 6
    priceChangeThreshold := 3
    mainFundRatioThreshold := 10
    stockType := "全部股票"
    maxResults := 10
    sortBy := .main_fund
    analyzeHolding := true }

/-- A merged row clearing all four default thresholds:
net inflow 10000万元, turnover ratio 10%, change +5%, main-fund ratio 50%. -/
def r0 : Row :=
  { code := "600519"
    name := "样本一"
    price := 100
    pctChange := 5
    volume := 1000
    amount := 200000000
    marketCap := 2000000000
    netPct := 50 }

/-- Same magnitudes as `r0` but an outflow: net inflow −10000万元, so the
`main_fund` sort key `abs` ties with `r0`. -/
def r1 : Row :=
  { code := "000001"
    name := "样本二"
    price := 100
    pctChange := 5
    volume := 1000
    amount := 200000000
    marketCap := 2000000000
    netPct := -50 }

theorem passes_r0 : passesFilter c0 r0 = true := by
  norm_num [passesFilter, c0, r0, Row.mainFundWan, Row.netAmount,
    Row.amountWan, Row.turnoverRatio, Row.mainFundRatio]

theorem passes_r1 : passesFilter c0 r1 = true := by
  norm_num [passesFilter, c0, r1, Row.mainFundWan, Row.netAmount,
    Row.amountWan, Row.turnoverRatio, Row.mainFundRatio]

theorem sample_filter : ([r0, r1]).filter (passesFilter c0) = [r0, r1] := by
  simp [List.filter_cons, passes_r0, passes_r1]

/-- The two sample rows carry the same `main_fund` sort key. -/
theorem sample_keys_tie : sortKey c0 r0 = sortKey c0 r1 ∧ sortKey c0 r0 = 10000 := by
  norm_num [sortKey, c0, r0, r1, Row.mainFundWan, Row.netAmount]

/-- `[r1, r0]` is a possible sort of `filter [r0, r1]` under the
`main_fund` key: a permutation, non-increasing (the keys tie at 10000). -/
theorem sample_sorted_data : IsAnalyzeData c0 [r0, r1] [r1, r0] := by
  refine ⟨[r1, r0], ⟨?_, ?_⟩, rfl⟩
  · rw [sample_filter]
    exact List.Perm.swap _ _ _
  · refine List.chain'_cons.mpr ⟨?_, List.chain'_singleton _⟩
    rw [sample_keys_tie.1]

/-! ## C1 — conjunctive filtering -/

/-- C1: every row of the `data` list produced by the
filter/sort/truncate pipeline of `analyze_large_fund_flow` satisfies all
four threshold predicates simultaneously — |net inflow 万元| ≥
main-fund threshold, turnover ratio ≥ turnover threshold, |price
change %| ≥ price-change threshold, main-fund ratio ≥ main-fund-ratio
threshold; no partial match is included. -/
theorem analyze_filter_conjunction (c : Criteria) (merged data : List Row)
    (r : Row) (hdata : IsAnalyzeData c merged data) (hr : r ∈ data) :
    c.mainFundInflowThreshold ≤ |r.mainFundWan|
    ∧ c.turnoverRatioThreshold ≤ r.turnoverRatio
    ∧ c.priceChangeThreshold ≤ |r.pctChange|
    ∧ c.mainFundRatioThreshold ≤ r.mainFundRatio := by
  obtain ⟨sorted, ⟨hperm, hchain⟩, hd⟩ := hdata
  subst hd
  have h1 : r ∈ sorted := List.take_subset _ _ hr
  have h2 : r ∈ merged.filter (passesFilter c) := hperm.mem_iff.mp h1
  have h3 := (List.mem_filter.mp h2).2
  simp only [passesFilter, Bool.and_eq_true, decide_eq_true_eq] at h3
  exact ⟨h3.1.1.1, h3.1.1.2, h3.1.2, h3.2⟩

/-- Witness for C1 at the sample input. -/
theorem analyze_filter_conjunction_witness :
    IsAnalyzeData c0 [r0, r1] [r1, r0] ∧ r0 ∈ [r1, r0]
    ∧ (c0.mainFundInflowThreshold ≤ |r0.mainFundWan|
      ∧ c0.turnoverRatioThreshold ≤ r0.turnoverRatio
      ∧ c0.priceChangeThreshold ≤ |r0.pctChange|
      ∧ c0.mainFundRatioThreshold ≤ r0.mainFundRatio) :=
  ⟨sample_sorted_data, by simp,
    analyze_filter_conjunction c0 [r0, r1] [r1, r0] r0 sample_sorted_data (by simp)⟩

end AShares

namespace AShares

/-! ## C2 — sort order and (claimed) stability -/

/-- The C2 claim as stated: every `data` the pipeline can produce is
non-increasing in the sort key AND key-ties keep their original join
order (the order of the filtered merged table). -/
def SortStableClaim : Prop :=
  ∀ (c : Criteria) (merged data : List Row), IsAnalyzeData c merged data →
    data.Chain' (fun a b => sortKey c b ≤ sortKey c a)
    ∧ ∀ i j : ℕ, i < j → ∀ x y : Row, data[i]? = some x → data[j]? = some y →
        sortKey c x = sortKey c y →
        ∃ i' j' : ℕ, i' < j'
          ∧ (merged.filter (passesFilter c))[i']? = some x
          ∧ (merged.filter (passesFilter c))[j']? = some y

/-- C2 counterexample: with two rows whose `main_fund` keys tie
(net inflow +10000万元 vs −10000万元), the reversed order `[r1, r0]` is
also a valid quicksort output of `sort_values` (a permutation,
non-increasing in the key), and it violates original join order. -/
theorem sort_stability_cex : ¬ SortStableClaim := by
  intro h
  obtain ⟨-, hstab⟩ := h c0 [r0, r1] [r1, r0] sample_sorted_data
  obtain ⟨i', j', hij, hx, hy⟩ :=
    hstab 0 1 (by norm_num) r1 r0 rfl rfl (sample_keys_tie.1).symm
  rw [sample_filter] at hx hy
  have hne : r0 ≠ r1 := fun hrr => absurd (congrArg Row.code hrr) (by decide)
  have hi : i' = 1 := by
    rcases i' with _ | _ | n
    · simp only [List.getElem?_cons_zero, Option.some.injEq] at hx
      exact absurd hx hne
    · rfl
    · simp at hx
  have hj : j' = 0 := by
    rcases j' with _ | _ | n
    · rfl
    · simp only [List.getElem?_cons_succ, List.getElem?_cons_zero,
        Option.some.injEq] at hy
      exact absurd hy (Ne.symm hne)
    · simp at hy
  omega

/-- C2 as amended: the rows of `data` are non-increasing in the sort key
(absolute net inflow for `sort_by="main_fund"`, turnover ratio for
`"turnover_ratio"`); the order among key-ties is left unspecified,
because `sort_values` is called with its default unstable quicksort. -/
theorem analyze_sort_noninc (c : Criteria) (merged data : List Row)
    (hdata : IsAnalyzeData c merged data) :
    data.Chain' (fun a b => sortKey c b ≤ sortKey c a) := by
  obtain ⟨sorted, ⟨-, hchain⟩, hd⟩ := hdata
  subst hd
  exact hchain.take _

/-- Witness for the amended C2 at the sample input. -/
theorem analyze_sort_noninc_witness :
    IsAnalyzeData c0 [r0, r1] [r1, r0]
    ∧ ([r1, r0]).Chain' (fun a b => sortKey c0 b ≤ sortKey c0 a) :=
  ⟨sample_sorted_data,
    analyze_sort_noninc c0 [r0, r1] [r1, r0] sample_sorted_data⟩

/-! ## C3 — truncation to max_results -/

/-- C3: `data` never exceeds `max_results` rows, and `max_results = 0`
gives an empty `data` inside a successful (`"分析完成"`) result. -/
theorem analyze_truncation (c : Criteria) (merged : List Row)
    (res : AnalysisResult) (h : IsAnalyzeResult c merged res) :
    res.data.length ≤ c.maxResults
    ∧ (c.maxResults = 0 → res.data = [] ∧ res.message = "分析完成") := by
  obtain ⟨data, ⟨sorted, -, hd⟩, hres⟩ := h
  subst hres
  subst hd
  exact ⟨List.length_take_le _ _, fun h0 => ⟨by simp [h0], rfl⟩⟩

/-- Default criteria with `max_results = 0`. -/
def c00 : Criteria := { c0 with maxResults := 0 }

theorem sample_result0 :
    IsAnalyzeResult c00 [r0] { message := "分析完成", totalMatched := 0, data := [] } := by
  refine ⟨[], ⟨[r0], ⟨?_, List.chain'_singleton _⟩, rfl⟩, rfl⟩
  have hf : ([r0]).filter (passesFilter c00) = [r0] := by
    simp [List.filter_cons, show passesFilter c00 r0 = true from passes_r0]
  rw [hf]

/-- Witness for C3 at `max_results = 0`. -/
theorem analyze_truncation_witness :
    IsAnalyzeResult c00 [r0] { message := "分析完成", totalMatched := 0, data := [] }
    ∧ c00.maxResults = 0
    ∧ (AnalysisResult.mk "分析完成" 0 []).data.length ≤ c00.maxResults
    ∧ ((AnalysisResult.mk "分析完成" 0 []).data = []
      ∧ (AnalysisResult.mk "分析完成" 0 []).message = "分析完成") := by
  obtain ⟨h1, h2⟩ := analyze_truncation c00 [r0] _ sample_result0
  exact ⟨sample_result0, rfl, h1, h2 rfl⟩

/-! ## C8 — total_matched semantics -/

/-- The C8 claim as stated: whenever more rows pass the filter than
`max_results`, `total_matched` reports the pre-truncation count. -/
def TotalMatchedClaim : Prop :=
  ∀ (c : Criteria) (merged : List Row) (res : AnalysisResult),
    IsAnalyzeResult c merged res →
    c.maxResults < (merged.filter (passesFilter c)).length →
    res.totalMatched = (merged.filter (passesFilter c)).length

/-- Default criteria with `max_results = 1`. -/
def c8c : Criteria := { c0 with maxResults := 1 }

/-- With both sample rows passing and `max_results = 1`, the reported
envelope carries `total_matched = 1`. -/
def res8 : AnalysisResult := { message := "分析完成", totalMatched := 1, data := [r1] }

theorem sample_filter8 : ([r0, r1]).filter (passesFilter c8c) = [r0, r1] := by
  simp [List.filter_cons, show passesFilter c8c r0 = true from passes_r0,
    show passesFilter c8c r1 = true from passes_r1]

theorem sample_result8 : IsAnalyzeResult c8c [r0, r1] res8 := by
  refine ⟨[r1], ⟨[r1, r0], ⟨?_, ?_⟩, rfl⟩, rfl⟩
  · rw [sample_filter8]
    exact List.Perm.swap _ _ _
  · refine List.chain'_cons.mpr ⟨?_, List.chain'_singleton _⟩
    rw [show sortKey c8c r0 = sortKey c8c r1 from sample_keys_tie.1]

/-- C8 counterexample: two rows pass the filter, `max_results = 1`, and
the result's `total_matched` is `len(result_list) = 1`, not the
pre-truncation count 2. -/
theorem total_matched_cex : ¬ TotalMatchedClaim := by
  intro h
  have hgt : c8c.maxResults < (([r0, r1]).filter (passesFilter c8c)).length := by
    rw [sample_filter8]; norm_num [c8c, c0]
  have := h c8c [r0, r1] res8 sample_result8 hgt
  rw [sample_filter8] at this
  norm_num [res8] at this

/-- C8 as amended: `total_matched` equals `len(data)`, the truncated
count — `min max_results (number of rows passing the filter)`. -/
theorem analyze_total_matched (c : Criteria) (merged : List Row)
    (res : AnalysisResult) (h : IsAnalyzeResult c merged res) :
    res.totalMatched = res.data.length
    ∧ res.data.length = min c.maxResults (merged.filter (passesFilter c)).length := by
  obtain ⟨data, ⟨sorted, ⟨hperm, -⟩, hd⟩, hres⟩ := h
  subst hres
  refine ⟨rfl, ?_⟩
  subst hd
  simp [List.length_take, hperm.length_eq]

/-- Witness for the amended C8 at the sample input. -/
theorem analyze_total_matched_witness :
    IsAnalyzeResult c8c [r0, r1] res8
    ∧ res8.totalMatched = res8.data.length
    ∧ res8.data.length
        = min c8c.maxResults (([r0, r1]).filter (passesFilter c8c)).length := by
  obtain ⟨h1, h2⟩ := analyze_total_matched c8c [r0, r1] res8 sample_result8
  exact ⟨sample_result8, h1, h2⟩

end AShares

namespace AShares

/-! ## C4 — screening-cache key -/

/-- `c0` with `max_results = 5`: differs from `c0` only in the result cap. -/
def c4b : Criteria := { c0 with maxResults := 5 }

/-- C4: the cache key omits `max_results`, so two calls identical except
for the result cap share one cache entry, and within the 300-second
window the second call is served the first call's payload verbatim —
even though its `data` was truncated for the other cap. -/
theorem cache_key_ignores_max_results (res : AnalysisResult) (t now : ℚ)
    (hfresh : now - t < 300) :
    cacheKey c0 = cacheKey c4b
    ∧ c0.maxResults ≠ c4b.maxResults
    ∧ checkRequestCache [(cacheKey c0, (res, t))] (cacheKey c4b) now = some res := by
  refine ⟨rfl, by norm_num [c0, c4b], ?_⟩
  show checkRequestCache [(cacheKey c0, (res, t))] (cacheKey c0) now = some res
  simp [checkRequestCache, List.lookup, hfresh]

/-- Witness for C4: a concrete payload cached at `t = 0` is returned to
the `max_results = 5` call at `now = 60`. -/
theorem cache_key_ignores_max_results_witness :
    ((60 : ℚ) - 0 < 300)
    ∧ cacheKey c0 = cacheKey c4b
    ∧ c0.maxResults ≠ c4b.maxResults
    ∧ checkRequestCache [(cacheKey c0, (res8, 0))] (cacheKey c4b) 60 = some res8 := by
  obtain ⟨h1, h2, h3⟩ := cache_key_ignores_max_results res8 0 60 (by norm_num)
  exact ⟨by norm_num, h1, h2, h3⟩

/-! ## C5 — quarter-candidate generation -/

/-- C5: the quarter-candidate list is a deterministic function of the
current (year, month); the current year's quarter 1 is present once
month ≥ 4, quarter 2 once month ≥ 8, quarter 3 once month ≥ 10, the
prior year's quarter 4 is always present, the list never repeats an
identifier, and in November it begins with the current year's Q3. -/
theorem quarters_to_try_spec (year month : ℕ) :
    (4 ≤ month → (toString year ++ "1") ∈ quartersToTry year month)
    ∧ (8 ≤ month → (toString year ++ "2") ∈ quartersToTry year month)
    ∧ (10 ≤ month → (toString year ++ "3") ∈ quartersToTry year month)
    ∧ (toString (year - 1) ++ "4") ∈ quartersToTry year month
    ∧ (quartersToTry year month).Nodup
    ∧ (month = 11 → (quartersToTry year month).head? = some (toString year ++ "3")) := by
  refine ⟨?_, ?_, ?_, ?_, nodup_pyDedup _, ?_⟩
  · intro h
    simp only [quartersToTry, mem_pyDedup]
    split_ifs <;> simp_all
  · intro h
    simp only [quartersToTry, mem_pyDedup]
    split_ifs <;> simp_all
  · intro h
    simp only [quartersToTry, mem_pyDedup]
    split_ifs <;> simp_all
  · simp only [quartersToTry, mem_pyDedup]
    split_ifs <;> simp_all
  · intro h
    subst h
    simp [quartersToTry, pyDedup]

/-- Witness for C5 in November 2025. -/
theorem quarters_to_try_spec_witness :
    ((10 : ℕ) ≤ 11 ∧ (toString 2025 ++ "3") ∈ quartersToTry 2025 11)
    ∧ (toString 2024 ++ "4") ∈ quartersToTry 2025 11
    ∧ (quartersToTry 2025 11).Nodup
    ∧ (quartersToTry 2025 11).head? = some (toString 2025 ++ "3") := by
  obtain ⟨-, -, h3, h4, h5, h6⟩ := quarters_to_try_spec 2025 11
  exact ⟨⟨by norm_num, h3 (by norm_num)⟩, h4, h5, h6 rfl⟩

/-! ## C9 — market classifier -/

/-- C9: the classifier rejects any non-6-digit input with a validation
error, returns `"sh"`, `"sz"`, `"bj"` for the documented prefixes —
but for every other 6-digit code (e.g. `"999999"`) it falls off the end
of the function and yields Python `None`, not the docstring's
`"未知市场"`. -/
theorem get_stock_market_spec :
    get_stock_market "600519" = .ok (some "sh")
    ∧ get_stock_market "000001" = .ok (some "sz")
    ∧ get_stock_market "830799" = .ok (some "bj")
    ∧ get_stock_market "99999" = .error "股票代码必须为6位数字字符串"
    ∧ get_stock_market "6005a9" = .error "股票代码必须为6位数字字符串"
    ∧ get_stock_market "999999" = .ok none
    ∧ get_stock_market "999999" ≠ .ok (some "未知市场") := by
  refine ⟨rfl, rfl, rfl, rfl, rfl, rfl, fun h => ?_⟩
  rw [show get_stock_market "999999" = .ok none from rfl] at h
  simp at h

/-! ## C10 — stock-code normalizer -/

/-- The C10 claim's example behaviour on `"600519.SH"`: taking the last
6 characters first (`"519.SH"`) and only then dropping the dot suffix
yields `"519"`, not the claimed `"600519"`. -/
theorem format_stock_code_cex :
    format_stock_code "600519.SH" = "519"
    ∧ format_stock_code "600519.SH" ≠ "600519" := by
  refine ⟨by decide, by decide⟩

/-- C10 as amended: the normalizer first truncates to the last 6
characters and then drops everything from the first dot on, so
`"SZ000001" → "000001"`, a bare code is unchanged, and a code with an
exchange suffix such as `"600519.SH"` collapses to `"519"`. -/
theorem format_stock_code_spec :
    format_stock_code "SZ000001" = "000001"
    ∧ format_stock_code "600519" = "600519"
    ∧ format_stock_code "600519.SH" = "519" := by
  refine ⟨by decide, by decide, by decide⟩

end AShares

namespace AShares

/-! ## C6 — per-stock failure isolation -/

/-- The probing loop depends on the fetch oracle only through its values. -/
theorem collectAvail_congr (f f' : String → Except String (List InstRow))
    (h : ∀ q, f q = f' q) :
    ∀ (l : List String) (i : ℕ) (acc : List (String × List InstRow)),
      collectAvail f l i acc = collectAvail f' l i acc := by
  intro l
  induction l with
  | nil => intro i acc; rfl
  | cons q rest ih =>
    intro i acc
    simp only [collectAvail, h q]
    split
    · rfl
    · split
      · rfl
      · cases f' q with
        | error e => rfl
        | ok frame =>
          simp only
          split
          · exact ih _ _
          · exact ih _ _

/-- C6: per-stock failure isolation of the enrichment loop.  If the
institutional lookup raises for the stock whose clean code is `s0`
(its first probed quarter errors), then (i) every stock with a
different clean code gets exactly the record it would get had `s0`'s
lookups not been broken, (ii) `s0`'s own record carries the error
status in its `机构持股` sub-section, and (iii) `s0`'s `股东持股`
sub-section — and hence the rest of its record and the overall
screening result, which the oracles never touch — is computed
unaffected, from the shareholder oracle alone. -/
theorem enrich_isolation
    (instF instF' : String → String → Except String (List InstRow))
    (holdF holdF' : String → Except String (List HolderRow))
    (quarters : List String) (s0 : String)
    (hagree : ∀ s, s ≠ s0 →
      (∀ q, instF s q = instF' s q) ∧ holdF s = holdF' s) :
    (∀ code, format_stock_code code ≠ s0 →
      enrichOne instF holdF quarters code = enrichOne instF' holdF' quarters code)
    ∧ (∀ code q rest m, quarters = q :: rest →
        format_stock_code code = s0 → instF' s0 q = .error m →
        (enrichOne instF' holdF' quarters code).inst = .fail m)
    ∧ (∀ code, (enrichOne instF' holdF' quarters code).holder
        = holderBlock (holdF' (format_stock_code code)))
    ∧ (∀ codes, (∀ c ∈ codes, format_stock_code c ≠ s0) →
        holdingInfo instF holdF quarters codes
          = holdingInfo instF' holdF' quarters codes) := by
  have hmain : ∀ code, format_stock_code code ≠ s0 →
      enrichOne instF holdF quarters code = enrichOne instF' holdF' quarters code := by
    intro code hne
    obtain ⟨hi, hh⟩ := hagree _ hne
    simp only [enrichOne, instBlock, collectAvail_congr _ _ hi, hh]
  refine ⟨hmain, ?_, fun code => rfl, ?_⟩
  · intro code q rest m hq hcode herr
    subst hq
    rw [← hcode] at herr
    simp [enrichOne, instBlock, collectAvail, herr]
  · intro codes hall
    simp only [holdingInfo]
    exact List.map_congr_left (fun c hc => by rw [hmain c (hall c hc)])

/-- Institutional oracle that always succeeds with an empty frame. -/
def mockInstOk : String → String → Except String (List InstRow) :=
  fun _ _ => .ok []

/-- Institutional oracle raising only for clean code `"000001"`. -/
def mockInstErr : String → String → Except String (List InstRow) :=
  fun s _ => if s = "000001" then .error "查询超时" else .ok []

/-- Shareholder oracle that always succeeds with an empty frame. -/
def mockHold : String → Except String (List HolderRow) :=
  fun _ => .ok []

/-- Witness for C6: with the mock oracles, the stock `"600519"` is
unaffected by `"000001"`'s failure, and `"000001"`'s record carries the
error only in its institutional sub-section. -/
theorem enrich_isolation_witness :
    (format_stock_code "600519" ≠ "000001"
      ∧ enrichOne mockInstOk mockHold ["20251"] "600519"
          = enrichOne mockInstErr mockHold ["20251"] "600519")
    ∧ (format_stock_code "000001" = "000001"
      ∧ mockInstErr "000001" "20251" = .error "查询超时"
      ∧ (enrichOne mockInstErr mockHold ["20251"] "000001").inst
          = .fail "查询超时")
    ∧ (enrichOne mockInstErr mockHold ["20251"] "000001").holder
        = holderBlock (mockHold (format_stock_code "000001")) := by
  obtain ⟨h1, h2, h3, -⟩ :=
    enrich_isolation mockInstOk mockInstErr mockHold mockHold ["20251"] "000001"
      (fun s hs => ⟨fun q => by simp [mockInstOk, mockInstErr, hs], rfl⟩)
  exact ⟨⟨by decide, h1 _ (by decide)⟩,
    ⟨rfl, rfl, h2 "000001" "20251" [] "查询超时" rfl (by decide) rfl⟩,
    h3 _⟩

end AShares

namespace AShares

/-! ## C7 — holding-cache persistence across calls -/

theorem lookupHolding_cons_ne (cache : List (String × (StockHolding × ℚ)))
    (k k0 : String) (v : StockHolding × ℚ) (now : ℚ) (hne : k ≠ k0) :
    lookupHolding ((k0, v) :: cache) k now = lookupHolding cache k now := by
  simp [lookupHolding, List.lookup, beq_eq_false_iff_ne.mpr hne]

/-- Against any starting cache containing no fresh entry for the listed
stocks, the per-stock loop computes every stock (no cache hit). -/
theorem run_holding_loop_all_miss
    (instF : String → String → Except String (List InstRow))
    (holdF : String → Except String (List HolderRow))
    (quarters : List String) (now : ℚ) :
    ∀ (codes : List String) (cache : List (String × (StockHolding × ℚ))),
      (codes.map (fun c => "holding_" ++ format_stock_code c)).Nodup →
      (∀ c ∈ codes,
        lookupHolding cache ("holding_" ++ format_stock_code c) now = none) →
      (runHoldingLoop instF holdF quarters now codes cache).2 = codes.length := by
  intro codes
  induction codes with
  | nil => intro cache _ _; rfl
  | cons code rest ih =>
    intro cache hnodup hnone
    have hkey := hnone code (by simp)
    rw [runHoldingLoop, hkey]
    simp only [List.length_cons]
    rw [List.map_cons] at hnodup
    obtain ⟨hhead, htail⟩ := List.nodup_cons.mp hnodup
    rw [ih _ htail ?_]
    intro c hc
    rw [lookupHolding_cons_ne]
    · exact hnone c (List.mem_cons_of_mem _ hc)
    · intro heq
      exact hhead (heq ▸ List.mem_map_of_mem _ hc)

/-- C7: line 99 re-creates `_holding_cache = {}` inside every
`analyze_large_fund_flow` call, so the loop of a call runs against an
empty holding cache: every (distinctly-keyed) stock is recomputed, and
nothing a previous call computed — however recent — is ever reused. -/
theorem holding_cache_not_cross_call
    (instF : String → String → Except String (List InstRow))
    (holdF : String → Except String (List HolderRow))
    (quarters : List String) (now : ℚ) (codes : List String)
    (hnodup : (codes.map (fun c => "holding_" ++ format_stock_code c)).Nodup) :
    (callHoldingLoop instF holdF quarters now codes).2 = codes.length := by
  exact run_holding_loop_all_miss instF holdF quarters now codes []
    hnodup (fun c _ => rfl)

/-- Witness for C7: a second screening call 60 seconds after one that
already enriched `"600519"` still performs the full computation for it. -/
theorem holding_cache_not_cross_call_witness :
    ((["600519"] : List String).map
        (fun c => "holding_" ++ format_stock_code c)).Nodup
    ∧ (callHoldingLoop mockInstOk mockHold ["20251"] 60 ["600519"]).2 = 1 := by
  refine ⟨by decide, ?_⟩
  exact holding_cache_not_cross_call mockInstOk mockHold ["20251"] 60 ["600519"]
    (by decide)

end AShares
